import Mathlib

/-!
Verification of the BRAWK interpreter core (a small AWK-like language
implemented in Rust) against its natural-language specification.

The embedding below translates the runtime value model (src/value.rs), the
stack virtual machine opcode handlers (src/machine.rs) and the field store
(src/awkio.rs) into Lean.  Rust strings are modelled as lists of characters,
Rust i64 as mathematical integers together with the explicit i64 bounds where
the source performs checked arithmetic, Rust f64 as exact rationals (IEEE
rounding is outside the model), Rust HashMap as an insertion-ordered
association list, and fatal `exit_err` calls as the error case of `Except`.
The external regex crate is an out-of-scope collaborator; its split, match
and replace primitives are modelled for metacharacter-free (literal)
patterns, which is the fragment the theorems below exercise.
-/

/-- Rust `String` and `&str` are modelled as lists of characters. -/
abbrev Str := List Char

/-- Bound of Rust i64: 2 ^ 63 - 1. -/
def i64Max : Int := 9223372036854775807

/-- Lower bound of Rust i64: - 2 ^ 63. -/
def i64Min : Int := -9223372036854775808

/-- Rust `i64::checked_add(1)`: `none` exactly when the increment would
leave the i64 range. -/
def checkedAdd1 (n : Int) : Option Int :=
  if n + 1 > i64Max then none else some (n + 1)

/-- Rust `i64::checked_sub(1)`: `none` exactly when the decrement would
leave the i64 range. -/
def checkedSub1 (n : Int) : Option Int :=
  if n - 1 < i64Min then none else some (n - 1)

/-- Alias for the builtin booleans, so that the `Bool` constructor of
`Value` below can state its payload type unambiguously. -/
abbrev Boolean := Bool

/-- The observable fields of the `AwkIO` struct of src/awkio.rs: the field
list and the current record line.  The open input and output handles are
host resources outside the model (the Clone impl of the source also copies
only these two fields). -/
structure AwkIoState where
  fields : List Str
  line : Str
  deriving Repr

/-- Translation of `AwkIO::get_field` (src/awkio.rs lines 134 to 141):
one-based field access, with the empty string for index zero or for an
index beyond the stored field count. -/
def AwkIoState.get_field (a : AwkIoState) (index : Nat) : Str :=
  if h : 0 < index ∧ index ≤ a.fields.length then
    a.fields.get ⟨index - 1, by omega⟩
  else []

/-- The runtime value model of src/value.rs (`enum Value`).  Payloads kept
abstractly: process exit status as an integer, the IO handle as the record
of its observable fields.  The `ArrayLiteral` map is an insertion-ordered
association list standing in for Rust `HashMap<String, Box<Value>>`. -/
inductive Value : Type where
  | Number : Int → Value
  | Float : ℚ → Value
  | Instruction : Nat → Value
  | Identifier : Str → Value
  | AssociativeIdentifier : Str → Str → Value
  | StringLiteral : Str → Value
  | RegexPattern : Str → Value
  | Bool : Boolean → Value
  | Command : Str → List Str → Value
  | ExecResult : Str → Int → Value
  | ArrayLiteral : List (Str × Value) → Value
  | FilePath : Str → Value
  | AwkIo : AwkIoState → Value
  deriving Repr

/-- Association-list lookup, the model of `HashMap::get`. -/
def lookupA {α : Type} : List (Str × α) → Str → Option α
  | [], _ => none
  | (k, v) :: rest, key => if k = key then some v else lookupA rest key

/-- Association-list insert, the model of `HashMap::insert`: overwrite an
existing binding in place, otherwise append. -/
def insertA {α : Type} (m : List (Str × α)) (key : Str) (v : α) :
    List (Str × α) :=
  if (lookupA m key).isSome then
    m.map (fun p => if p.1 = key then (key, v) else p)
  else m ++ [(key, v)]

/-- Translation of `Value::is_truthy` (src/value.rs lines 51 to 58):
a `Number` is truthy only when strictly positive, a `StringLiteral` when
non-empty, a `Bool` when true, and every other variant, floats and arrays
included, falls to the catch-all `false` arm. -/
def Value.is_truthy : Value → Boolean
  | .Number n => 0 < n
  | .StringLiteral s => !s.isEmpty
  | .Bool b => b
  | _ => false

/-- Translation of `Value::is_falsy`. -/
def Value.is_falsy (v : Value) : Boolean := !v.is_truthy

/-- Translation of `Value::increment` (src/value.rs lines 210 to 222):
checked integer increment, exact float increment, `none` on other tags.
The Rust method mutates in place; the model returns the updated value. -/
def Value.increment : Value → Option Value
  | .Number n => (checkedAdd1 n).map .Number
  | .Float f => some (.Float (f + 1))
  | _ => none

/-- Translation of `Value::decrement` (src/value.rs lines 224 to 236). -/
def Value.decrement : Value → Option Value
  | .Number n => (checkedSub1 n).map .Number
  | .Float f => some (.Float (f - 1))
  | _ => none

/-- Translation of `Value::divide` (src/value.rs lines 99 to 117): `none`
when both operands are integers with zero divisor, `none` when both are
floats with zero divisor, `none` on any other tag pair. -/
def Value.divide : Value → Value → Option Value
  | .Number a, .Number b =>
      if b ≠ 0 then some (.Number (Int.tdiv a b)) else none
  | .Float a, .Float b =>
      if b ≠ 0 then some (.Float (a / b)) else none
  | _, _ => none

/-- Translation of `Value::add` (src/value.rs lines 64 to 81).  Arrays
concatenate by `extend`, modelled as a fold of inserts of the right map
into the left. -/
def Value.add : Value → Value → Option Value
  | .Number a, .Number b => some (.Number (a + b))
  | .Float a, .Float b => some (.Float (a + b))
  | .StringLiteral a, .StringLiteral b => some (.StringLiteral (a ++ b))
  | .ArrayLiteral a, .ArrayLiteral b =>
      some (.ArrayLiteral (b.foldl (fun m p => insertA m p.1 p.2) a))
  | _, _ => none

/-- The machine applies `%` to stack cells although src/value.rs defines no
remainder method at all (the Rust file would not compile as given); the
evident integer case is modelled with the truncating remainder of Rust `%`,
every other tag pairing yielding `none` like any unsupported pairing. -/
def Value.remainder : Value → Value → Option Value
  | .Number a, .Number b => some (.Number (Int.tmod a b))
  | _, _ => none

/-- Translation of `Value::get_string` (src/value.rs lines 37 to 42). -/
def Value.get_string : Value → Option Str
  | .StringLiteral s => some s
  | _ => none

/-- The model of Rust `str::find` for a literal pattern: the least index at
which the pattern occurs in the haystack, `none` when it never occurs. -/
def findSub : Str → Str → Option Nat
  | [], pat => if pat.isPrefixOf [] then some 0 else none
  | c :: s2, pat =>
    if pat.isPrefixOf (c :: s2) then some 0
    else (findSub s2 pat).map (fun n => n + 1)

/-- Modelled from the spec: the replace primitive of the external regex
engine, restricted to metacharacter-free patterns, where replacing the
first match is replacing the first occurrence of the pattern text. -/
def replaceFirst (pat repl s : Str) : Str :=
  match findSub s pat with
  | none => s
  | some i => s.take i ++ repl ++ s.drop (i + pat.length)

/-- Fuelled worker for `replaceAll`; the fuel bounds the number of
replacements, which for a non-empty pattern never exceeds the length of
the subject string. -/
def replaceAllGo (pat repl : Str) : Nat → Str → Str
  | 0, s => s
  | Nat.succ fuel, s =>
    match findSub s pat with
    | none => s
    | some i => s.take i ++ repl ++
        replaceAllGo pat repl fuel (s.drop (i + pat.length))

/-- Modelled from the spec: the replace-all primitive of the external regex
engine, restricted to non-empty metacharacter-free patterns: replace the
non-overlapping occurrences left to right, never rescanning replaced
text. -/
def replaceAll (pat repl s : Str) : Str :=
  replaceAllGo pat repl (s.length + 1) s

/-- Modelled from the spec: the split primitive of the external regex
engine, for a single-character literal pattern, splitting at every
occurrence of the character; patterns outside the modelled fragment are
left as the trivial split. -/
def splitPat (pat input : Str) : List Str :=
  match pat with
  | [c] => input.splitOn c
  | _ => [input]

/-- Translation of `Value::index` (src/value.rs lines 468 to 481): on two
string operands, one plus the position of the first occurrence, or zero
when absent; any other tags hit `exit_err`, the error case. -/
def Value.index (self target : Value) : Except String Value :=
  match self, target with
  | .StringLiteral source, .StringLiteral pattern =>
      match findSub source pattern with
      | some position => .ok (.Number (position + 1))
      | none => .ok (.Number 0)
  | _, _ => .error "Invalid usage of index function"

/-- Translation of `Value::index_of` (src/value.rs lines 556 to 567), the
variant of `index` that returns `none` instead of exiting on bad tags. -/
def Value.index_of (self target : Value) : Option Value :=
  match self, target with
  | .StringLiteral source, .StringLiteral pattern =>
      match findSub source pattern with
      | some position => some (.Number (position + 1))
      | none => some (.Number 0)
  | _, _ => none

/-- Translation of `Value::split` (src/value.rs lines 483 to 506): split
the subject by the pattern, store piece `i` at key `i.to_string()` in the
array map, and return the piece count; non-string or non-array tags hit
`exit_err`.  The mutation of the array argument is returned alongside the
count.  Pattern compilation always succeeds on the modelled literal
fragment, so the invalid-regex exit is unreachable here. -/
def Value.split (self regex arr : Value) : Except String (Value × Value) :=
  match self, regex, arr with
  | .StringLiteral input, .StringLiteral regex_str, .ArrayLiteral array_map =>
      let split_values := splitPat regex_str input
      let updated := split_values.enum.foldl
        (fun m p => insertA m (Nat.repr p.1).data (.StringLiteral p.2))
        array_map
      .ok (.Number split_values.length, .ArrayLiteral updated)
  | _, _, _ => .error "Invalid usage of split function"

/-- Translation of `Value::sub` (src/value.rs lines 508 to 526): replace
the first match in place and return `Bool(true)` unconditionally; bad tags
hit `exit_err`.  The pair returned is the updated target together with the
Rust return value. -/
def Value.sub (self regex replacement : Value) :
    Except String (Value × Value) :=
  match self, regex, replacement with
  | .StringLiteral input, .StringLiteral regex_str,
      .StringLiteral replacement_str =>
      .ok (.StringLiteral (replaceFirst regex_str replacement_str input),
        .Bool true)
  | _, _, _ => .error "Invalid usage of sub function"

/-- Translation of `Value::gsub` (src/value.rs lines 357 to 370): replace
every match in place; the Rust return type is `Option<()>`, so the call
yields no count, only the success unit, modelled by returning the updated
target; bad tags yield `none`. -/
def Value.gsub (self regex replacement : Value) : Option Value :=
  match self, regex, replacement with
  | .StringLiteral input, .StringLiteral regex_str,
      .StringLiteral replacement_str =>
      some (.StringLiteral (replaceAll regex_str replacement_str input))
  | _, _, _ => none

/-- Translation of `Value::join` (src/value.rs lines 569 to 580): the
separator is destructured from `self` while the `separator` parameter is
ignored, and the map values are joined.  The source iterates
`HashMap::values`, whose order Rust leaves unspecified; the model iterates
the association list in insertion order. -/
def Value.join (self separator arr : Value) : Option Value :=
  match self, separator, arr with
  | .StringLiteral separator_str, _, .ArrayLiteral array_map =>
      some (.StringLiteral (List.intercalate separator_str
        (array_map.map (fun p => p.2.get_string.getD []))))
  | _, _, _ => none

/-- The instruction set of src/machine.rs (`enum Instruction`). -/
inductive Instruction : Type where
  | PushValue | FunctionCall | JumpIfFalse | JumpIfTrue | Jump | Return
  | LoadVariable | StoreVariable | LoadAssociativeArrayValue
  | StoreAssociativeArrayValue | Duplicate | Swap
  | Add | Sub | Mul | Mod | Exp | Div | Shr | Shl
  | Eq | Ne | Gt | Ge | Lt | Le | And | Or
  | Incr | Decr | Pos | Neg | Begin | End
  | EreMatch | EreNonMatch
  | BitwiseAnd | BitwiseOr | BitwiseXor | BitwiseNot
  | Print | Printf | OutputToFile | AppendToFile | Getline | OpenPipe
  | System | CloseStream | AppendOut | RegexMatch
  | Concatenate | Length | Substring | IndexOf | Split | Join
  | ToLower | ToUpper | FormatTime | FormatNumber
  | SinFn | CosFn | TanFn | AsinFn | AcosFn | AtanFn
  | LogFn | Log10Fn | ExpFn | SqrtFn | IntFn | SubstrFn | SprintfFn
  | MatchFn | SubFn | GsubFn | RindexFn | SrandFn | RandFn | AndFn
  | Next | NextFile | Exit
  deriving Repr, DecidableEq

/-- The machine state of src/machine.rs (`struct StackVM`): the operand
stack holds `Option<Value>` cells (the source pushes results of the
fallible value operations directly), the top of the stack is the head of
the list, and the globals map `environ` stores `Option<Value>` cells as
well. -/
structure StackVM where
  stack : List (Option Value)
  program : List Instruction
  environ : List (Str × Option Value)
  pc : Nat
  sp : Nat
  deriving Repr

/-- Monadic lift of a fallible binary value operation to stack cells, the
reading of the source pushing `left + right` for cells of optional
values. -/
def optBin (f : Value → Value → Option Value)
    (a b : Option Value) : Option Value :=
  match a, b with
  | some x, some y => f x y
  | _, _ => none

/-- Translation of `StackVM::exec_add` (src/machine.rs lines 113 to 120):
a fatal error when fewer than two cells are on the stack, otherwise pop
two cells and push their sum cell (which is `none` on a tag mismatch). -/
def StackVM.exec_add (m : StackVM) : Except String StackVM :=
  if m.stack.length < 2 then
    .error "Not enough operands on the stack for ADD"
  else
    match m.stack with
    | left :: right :: rest =>
        .ok { m with stack := optBin Value.add left right :: rest }
    | _ => .error "Not enough operands on the stack for ADD"

/-- Translation of `StackVM::execute_div` (src/machine.rs lines 140 to
153): underflow is fatal; a divisor cell equal to the integer zero is the
fatal division-by-zero error (the source compares the popped cell against
the integer literal `0`); any other divisor pushes the quotient cell. -/
def StackVM.execute_div (m : StackVM) : Except String StackVM :=
  if m.stack.length < 2 then
    .error "Not enough operands on the stack for DIV"
  else
    match m.stack with
    | left :: right :: rest =>
        match right with
        | some (.Number b) =>
            if b = 0 then .error "Division by zero"
            else
              let cell := optBin Value.divide left (some (.Number b))
              .ok { m with stack := cell :: rest }
        | _ =>
            let cell := optBin Value.divide left right
            .ok { m with stack := cell :: rest }
    | _ => .error "Not enough operands on the stack for DIV"

/-- Translation of `StackVM::execute_mod` (src/machine.rs lines 155 to
167), with the same shape as `execute_div`. -/
def StackVM.execute_mod (m : StackVM) : Except String StackVM :=
  if m.stack.length < 2 then
    .error "Not enough operands on the stack for MOD"
  else
    match m.stack with
    | left :: right :: rest =>
        match right with
        | some (.Number b) =>
            if b = 0 then .error "Modulo by zero"
            else
              let cell := optBin Value.remainder left (some (.Number b))
              .ok { m with stack := cell :: rest }
        | _ =>
            let cell := optBin Value.remainder left right
            .ok { m with stack := cell :: rest }
    | _ => .error "Not enough operands on the stack for MOD"

/-- Translation of `StackVM::exec_jump_if_false` (src/machine.rs lines 324
to 330): pop a cell; only when it is an `Instruction` target is a second
cell popped, and only when that second cell is `Bool(false)` is the `sp`
field set to the target.  No branch raises an error: underflow and wrong
tags fall through silently. -/
def StackVM.exec_jump_if_false (m : StackVM) : Except String StackVM :=
  match m.stack with
  | some (.Instruction target) :: rest =>
      match rest with
      | some (.Bool false) :: rest2 =>
          .ok { m with stack := rest2, sp := target }
      | _ :: rest2 => .ok { m with stack := rest2 }
      | [] => .ok { m with stack := [] }
  | _ :: rest => .ok { m with stack := rest }
  | [] => .ok m

/-- Translation of `StackVM::exec_jump_if_true` (src/machine.rs lines 332
to 338). -/
def StackVM.exec_jump_if_true (m : StackVM) : Except String StackVM :=
  match m.stack with
  | some (.Instruction target) :: rest =>
      match rest with
      | some (.Bool true) :: rest2 =>
          .ok { m with stack := rest2, sp := target }
      | _ :: rest2 => .ok { m with stack := rest2 }
      | [] => .ok { m with stack := [] }
  | _ :: rest => .ok { m with stack := rest }
  | [] => .ok m

/-- Translation of `StackVM::exec_jump` (src/machine.rs lines 340 to 344):
pop a cell and, when it is an `Instruction` target, set the `sp` field to
it; the `pc` field is left untouched.  Underflow and wrong tags fall
through silently. -/
def StackVM.exec_jump (m : StackVM) : Except String StackVM :=
  match m.stack with
  | some (.Instruction target) :: rest =>
      .ok { m with stack := rest, sp := target }
  | _ :: rest => .ok { m with stack := rest }
  | [] => .ok m

/-- Translation of `StackVM::exec_load_variable` (src/machine.rs lines 346
to 356): pop a cell; an `Identifier` cell whose name is bound in `environ`
pushes the stored value (the stored cell is unwrapped, so an empty stored
cell is the unwrap panic); an unbound name is the fatal variable-not-found
error; any other cell is the fatal invalid-operand error. -/
def StackVM.exec_load_variable (m : StackVM) : Except String StackVM :=
  match m.stack with
  | some (.Identifier variable_name) :: rest =>
      match lookupA m.environ variable_name with
      | some (some v) => .ok { m with stack := some v :: rest }
      | some none => .error "panicked unwrapping an empty variable cell"
      | none => .error "Error: variable not found"
  | _ :: _ => .error "Invalid operand type for LoadVariable"
  | [] => .error "Invalid operand type for LoadVariable"

/-- Translation of `StackVM::execute_store_variable` (src/machine.rs lines
358 to 370). -/
def StackVM.execute_store_variable (m : StackVM) : Except String StackVM :=
  if m.stack.length < 2 then
    .error "Not enough operands on the stack for STORE_VARIABLE"
  else
    match m.stack with
    | some (.Identifier variable_name) :: value_to_store :: rest =>
        let env2 := insertA m.environ variable_name value_to_store
        .ok { m with stack := rest, environ := env2 }
    | _ :: _ :: _ => .error "Invalid operand types for STORE_VARIABLE"
    | _ => .error "Not enough operands on the stack for STORE_VARIABLE"

/-- Modelled from the spec: the dispatch loop, absent from the source,
reads `program[pc]`, increments `pc`, and executes the instruction; one
step of it therefore yields the instruction at `pc` together with the
state whose `pc` moved to the successor index. -/
def StackVM.dispatchStep (m : StackVM) : Option (Instruction × StackVM) :=
  match m.program.get? m.pc with
  | some i => some (i, { m with pc := m.pc + 1 })
  | none => none

/-! Helper lemmas -/

theorem findSub_eq_some (s pat : Str) (i : Nat) (h : findSub s pat = some i) :
    pat.isPrefixOf (s.drop i) = true ∧
      ∀ j < i, pat.isPrefixOf (s.drop j) = false := by
  induction s generalizing i with
  | nil =>
      cases hp : pat.isPrefixOf ([] : Str) with
      | true =>
          simp [findSub, hp] at h
          subst h
          exact ⟨hp, by omega⟩
      | false =>
          simp [findSub, hp] at h
  | cons c s2 ih =>
      cases hp : pat.isPrefixOf (c :: s2) with
      | true =>
          simp [findSub, hp] at h
          subst h
          exact ⟨hp, by omega⟩
      | false =>
          simp [findSub, hp, Option.map_eq_some'] at h
          obtain ⟨i2, hi2, rfl⟩ := h
          obtain ⟨h1, h2⟩ := ih i2 hi2
          refine ⟨h1, ?_⟩
          intro j hj
          cases j with
          | zero => simpa using hp
          | succ j2 => exact h2 j2 (by omega)

theorem findSub_eq_none (s pat : Str) (h : findSub s pat = none) :
    ∀ j, pat.isPrefixOf (s.drop j) = false := by
  induction s with
  | nil =>
      cases hp : pat.isPrefixOf ([] : Str) with
      | true => simp [findSub, hp] at h
      | false =>
          intro j
          simpa using hp
  | cons c s2 ih =>
      cases hp : pat.isPrefixOf (c :: s2) with
      | true => simp [findSub, hp] at h
      | false =>
          simp [findSub, hp] at h
          intro j
          cases j with
          | zero => simpa using hp
          | succ j2 => exact ih h j2

/-! Claim theorems -/

/-- C1 (counterexample): the claim says negative numbers, non-zero floats
and non-empty arrays are truthy; in the code all three are falsy. -/
theorem C1_truthiness_counterexample :
    Value.is_truthy (.Number (-1)) = false ∧
      Value.is_truthy (.Float 1) = false ∧
      Value.is_truthy (.ArrayLiteral [(['k'], .Number 1)]) = false :=
  ⟨rfl, rfl, rfl⟩

/-- C1 (amended): truthiness in the code is: a Number is truthy exactly
when strictly positive (so zero and every negative number are falsy), a
String exactly when non-empty, a Bool exactly when true, and every other
variant, floats and arrays included, is always falsy. -/
theorem C1_truthiness :
    (∀ n : Int, 0 < n → Value.is_truthy (.Number n) = true) ∧
      (∀ n : Int, n ≤ 0 → Value.is_truthy (.Number n) = false) ∧
      (∀ s : Str, s ≠ [] → Value.is_truthy (.StringLiteral s) = true) ∧
      Value.is_truthy (.StringLiteral []) = false ∧
      (∀ b, Value.is_truthy (.Bool b) = b) ∧
      (∀ q : ℚ, Value.is_truthy (.Float q) = false) ∧
      (∀ mp, Value.is_truthy (.ArrayLiteral mp) = false) ∧
      (∀ a, Value.is_truthy (.AwkIo a) = false) := by
  refine ⟨?_, ?_, ?_, rfl, ?_, ?_, ?_, ?_⟩
  · intro n h
    simpa [Value.is_truthy] using h
  · intro n h
    simpa [Value.is_truthy] using not_lt.mpr h
  · intro s h
    cases s with
    | nil => exact absurd rfl h
    | cons c s2 => rfl
  · intro b
    rfl
  · intro q
    rfl
  · intro mp
    rfl
  · intro a
    rfl

/-- C1 (witness): the amended truthiness evaluated at concrete values. -/
theorem C1_truthiness_witness :
    Value.is_truthy (.Number 3) = true ∧
      Value.is_truthy (.Number (-2)) = false ∧
      Value.is_truthy (.StringLiteral ['x']) = true :=
  ⟨C1_truthiness.1 3 (by decide), C1_truthiness.2.1 (-2) (by decide),
    C1_truthiness.2.2.1 ['x'] (by decide)⟩

/-- C2 (counterexample): the claim says float division by `Float 0.0`
succeeds and produces the IEEE infinity or NaN; `Value::divide` returns
`None` for it instead. -/
theorem C2_div_by_zero_counterexample :
    Value.divide (.Float 1) (.Float 0) = none := rfl

/-- C2 (amended): division or modulo whose divisor cell is the integer
zero is the fatal runtime error, at the machine level; float division by
zero produces no IEEE value: `Value::divide` yields `None` for a zero
divisor of either numeric tag, and the machine pushes that empty cell for
a float zero divisor instead of erroring. -/
theorem C2_div_by_zero :
    (∀ l rest prog env pc sp,
      StackVM.execute_div ⟨l :: some (.Number 0) :: rest, prog, env, pc, sp⟩
        = .error "Division by zero") ∧
      (∀ l rest prog env pc sp,
        StackVM.execute_mod ⟨l :: some (.Number 0) :: rest, prog, env, pc, sp⟩
          = .error "Modulo by zero") ∧
      (∀ a : Int, Value.divide (.Number a) (.Number 0) = none) ∧
      (∀ q : ℚ, Value.divide (.Float q) (.Float 0) = none) ∧
      (∀ x rest prog env pc sp,
        StackVM.execute_div
            ⟨some (.Float x) :: some (.Float 0) :: rest, prog, env, pc, sp⟩
          = .ok ⟨none :: rest, prog, env, pc, sp⟩) := by
  refine ⟨?_, ?_, ?_, ?_, ?_⟩
  · intro l rest prog env pc sp
    simp [StackVM.execute_div]
  · intro l rest prog env pc sp
    simp [StackVM.execute_mod]
  · intro a
    simp [Value.divide]
  · intro q
    simp [Value.divide]
  · intro x rest prog env pc sp
    simp [StackVM.execute_div, optBin, Value.divide]

/-- C5 (counterexample): the claim says every opcode raises a fatal error
on stack underflow; `JumpIfFalse` executed on the empty stack succeeds and
leaves the state unchanged. -/
theorem C5_underflow_counterexample :
    StackVM.exec_jump_if_false ⟨[], [], [], 0, 0⟩ = .ok ⟨[], [], [], 0, 0⟩ :=
  rfl

/-- C5 (amended): the arithmetic opcodes do raise a fatal error when the
stack holds fewer than two cells, but a wrong operand tag makes them push
an empty (`None`) cell instead of erroring, and the jump opcodes silently
do nothing on underflow and silently consume the cell on a wrong tag,
never raising an error. -/
theorem C5_underflow :
    (∀ m : StackVM, m.stack.length < 2 →
      m.exec_add = .error "Not enough operands on the stack for ADD") ∧
      (∀ prog env pc sp,
        StackVM.exec_jump_if_false ⟨[], prog, env, pc, sp⟩
          = .ok ⟨[], prog, env, pc, sp⟩) ∧
      (∀ n rest prog env pc sp,
        StackVM.exec_jump_if_false
            ⟨some (.Number n) :: rest, prog, env, pc, sp⟩
          = .ok ⟨rest, prog, env, pc, sp⟩) ∧
      (∀ n s rest prog env pc sp,
        StackVM.exec_add
            ⟨some (.Number n) :: some (.StringLiteral s) :: rest,
              prog, env, pc, sp⟩
          = .ok ⟨none :: rest, prog, env, pc, sp⟩) := by
  refine ⟨?_, ?_, ?_, ?_⟩
  · intro m h
    simp [StackVM.exec_add, h]
  · intro prog env pc sp
    rfl
  · intro n rest prog env pc sp
    rfl
  · intro n s rest prog env pc sp
    simp [StackVM.exec_add, optBin, Value.add]
  
/-- C5 (witness): the underflow error of an arithmetic opcode at a
concrete one-cell state. -/
theorem C5_underflow_witness :
    StackVM.exec_add ⟨[some (.Number 1)], [], [], 0, 0⟩
      = .error "Not enough operands on the stack for ADD" :=
  C5_underflow.1 ⟨[some (.Number 1)], [], [], 0, 0⟩ (by decide)

/-- C6: executing `Jump` with target 7 from `pc = 3` leaves `pc` at 3 and
writes 7 into the stack-pointer field `sp` instead, so the dispatch loop,
which reads `program[pc]`, continues at index 3 with the `Sub` opcode
rather than transferring control to index 7; likewise for a `JumpIfFalse`
whose condition is false. -/
theorem C6_jump_writes_sp_not_pc :
    StackVM.exec_jump
        ⟨[some (.Instruction 7)],
          [.Add, .Add, .Add, .Sub, .Mul, .Div, .Mod, .Exp], [], 3, 0⟩
      = .ok ⟨[], [.Add, .Add, .Add, .Sub, .Mul, .Div, .Mod, .Exp], [], 3, 7⟩ ∧
      StackVM.exec_jump_if_false
          ⟨[some (.Instruction 7), some (.Bool false)],
            [.Add, .Add, .Add, .Sub, .Mul, .Div, .Mod, .Exp], [], 3, 0⟩
        = .ok ⟨[], [.Add, .Add, .Add, .Sub, .Mul, .Div, .Mod, .Exp], [], 3, 7⟩ ∧
      StackVM.dispatchStep
          ⟨[], [.Add, .Add, .Add, .Sub, .Mul, .Div, .Mod, .Exp], [], 3, 7⟩
        = some (.Sub,
            ⟨[], [.Add, .Add, .Add, .Sub, .Mul, .Div, .Mod, .Exp], [], 4, 7⟩) :=
  ⟨rfl, rfl, rfl⟩

/-- C7 (counterexample): the claim says loading a variable absent from the
globals map pushes the empty string; the code raises the fatal
variable-not-found error. -/
theorem C7_unknown_variable_counterexample :
    StackVM.exec_load_variable ⟨[some (.Identifier ['x'])], [], [], 0, 0⟩
      = .error "Error: variable not found" := rfl

/-- C7 (amended): loading a variable whose name is not bound in the
globals map is a fatal runtime error, not an empty-string default; a bound
name pushes the stored value. -/
theorem C7_unknown_variable (m : StackVM) (name : Str)
    (rest : List (Option Value)) :
    (m.stack = some (.Identifier name) :: rest →
      lookupA m.environ name = none →
      m.exec_load_variable = .error "Error: variable not found") ∧
      (∀ v, m.stack = some (.Identifier name) :: rest →
        lookupA m.environ name = some (some v) →
        m.exec_load_variable = .ok { m with stack := some v :: rest }) := by
  constructor
  · intro h1 h2
    simp [StackVM.exec_load_variable, h1, h2]
  · intro v h1 h2
    simp [StackVM.exec_load_variable, h1, h2]

/-- C7 (witness): the amended behaviour at concrete states, one with an
unbound name and one with a bound one. -/
theorem C7_unknown_variable_witness :
    StackVM.exec_load_variable
        ⟨[some (.Identifier ['x'])], [], [(['y'], some (.Number 1))], 0, 0⟩
      = .error "Error: variable not found" ∧
      StackVM.exec_load_variable
          ⟨[some (.Identifier ['x'])], [], [(['x'], some (.Number 1))], 0, 0⟩
        = .ok ⟨[some (.Number 1)], [], [(['x'], some (.Number 1))], 0, 0⟩ :=
  ⟨(C7_unknown_variable
      ⟨[some (.Identifier ['x'])], [], [(['y'], some (.Number 1))], 0, 0⟩
      ['x'] []).1 rfl rfl,
    (C7_unknown_variable
      ⟨[some (.Identifier ['x'])], [], [(['x'], some (.Number 1))], 0, 0⟩
      ['x'] []).2 (.Number 1) rfl rfl⟩

/-- C9: field lookup is total and one-based: inside the range the stored
field is returned, and index zero or an index beyond the field count
yields the empty string without failing. -/
theorem C9_get_field_total (a : AwkIoState) (index : Nat) :
    (∀ _ : 1 ≤ index, ∀ h2 : index ≤ a.fields.length,
      a.get_field index = a.fields.get ⟨index - 1, by omega⟩) ∧
      (index = 0 ∨ a.fields.length < index → a.get_field index = []) := by
  constructor
  · intro h1 h2
    have hc : 0 < index ∧ index ≤ a.fields.length := ⟨h1, h2⟩
    unfold AwkIoState.get_field
    rw [dif_pos hc]
  · intro h
    cases h with
    | inl h0 =>
        subst h0
        simp [AwkIoState.get_field]
    | inr hgt =>
        have : ¬(0 < index ∧ index ≤ a.fields.length) := by omega
        simp [AwkIoState.get_field, this]

/-- C9 (witness): field access on a two-field record at indices 2, 0 and
3. -/
theorem C9_get_field_witness :
    AwkIoState.get_field ⟨[['a'], ['b']], []⟩ 2 = ['b'] ∧
      AwkIoState.get_field ⟨[['a'], ['b']], []⟩ 0 = [] ∧
      AwkIoState.get_field ⟨[['a'], ['b']], []⟩ 3 = [] :=
  ⟨(C9_get_field_total ⟨[['a'], ['b']], []⟩ 2).1 (by decide) (by decide),
    (C9_get_field_total ⟨[['a'], ['b']], []⟩ 0).2 (Or.inl rfl),
    (C9_get_field_total ⟨[['a'], ['b']], []⟩ 3).2 (Or.inr (by decide))⟩

/-- C10: increment and decrement use checked integer arithmetic: the i64
maximum cannot be incremented and the i64 minimum cannot be decremented
(both give `none` instead of wrapping), every other integer moves by
exactly one, floats move by exactly one, and every non-numeric tag gives
`none`. -/
theorem C10_checked_incr_decr :
    Value.increment (.Number i64Max) = none ∧
      Value.decrement (.Number i64Min) = none ∧
      (∀ n : Int, n < i64Max →
        Value.increment (.Number n) = some (.Number (n + 1))) ∧
      (∀ n : Int, i64Min < n →
        Value.decrement (.Number n) = some (.Number (n - 1))) ∧
      (∀ q : ℚ, Value.increment (.Float q) = some (.Float (q + 1))) ∧
      (∀ q : ℚ, Value.decrement (.Float q) = some (.Float (q - 1))) ∧
      (∀ v : Value, (∀ n, v ≠ .Number n) → (∀ q, v ≠ .Float q) →
        Value.increment v = none ∧ Value.decrement v = none) := by
  refine ⟨?_, ?_, ?_, ?_, ?_, ?_, ?_⟩
  · simp [Value.increment, checkedAdd1]
  · simp [Value.decrement, checkedSub1]
  · intro n h
    simp [Value.increment, checkedAdd1]
    omega
  · intro n h
    simp [Value.decrement, checkedSub1]
    omega
  · intro q
    rfl
  · intro q
    rfl
  · intro v h1 h2
    cases v with
    | Number n => exact absurd rfl (h1 n)
    | Float q => exact absurd rfl (h2 q)
    | Instruction i => exact ⟨rfl, rfl⟩
    | Identifier s => exact ⟨rfl, rfl⟩
    | AssociativeIdentifier s t => exact ⟨rfl, rfl⟩
    | StringLiteral s => exact ⟨rfl, rfl⟩
    | RegexPattern s => exact ⟨rfl, rfl⟩
    | Bool b => exact ⟨rfl, rfl⟩
    | Command c as => exact ⟨rfl, rfl⟩
    | ExecResult o st => exact ⟨rfl, rfl⟩
    | ArrayLiteral mp => exact ⟨rfl, rfl⟩
    | FilePath p => exact ⟨rfl, rfl⟩
    | AwkIo a => exact ⟨rfl, rfl⟩

/-- C10 (witness): checked increment and decrement at concrete values. -/
theorem C10_checked_incr_decr_witness :
    Value.increment (.Number 5) = some (.Number 6) ∧
      Value.decrement (.Number 5) = some (.Number 4) ∧
      Value.increment (.StringLiteral []) = none :=
  ⟨C10_checked_incr_decr.2.2.1 5 (by decide),
    C10_checked_incr_decr.2.2.2.1 5 (by decide),
    (C10_checked_incr_decr.2.2.2.2.2.2 (.StringLiteral [])
      (fun n h => Value.noConfusion h) (fun q h => Value.noConfusion h)).1⟩

/-- C8: `index(s, t)` on two strings returns one plus the position of the
first occurrence of `t` in `s`, and zero when `t` occurs nowhere in
`s`. -/
theorem C8_index_one_based (s t : Str) :
    (∀ i, t.isPrefixOf (s.drop i) = true →
      (∀ j < i, t.isPrefixOf (s.drop j) = false) →
      Value.index (.StringLiteral s) (.StringLiteral t)
        = .ok (.Number (i + 1))) ∧
      ((∀ j, t.isPrefixOf (s.drop j) = false) →
        Value.index (.StringLiteral s) (.StringLiteral t)
          = .ok (.Number 0)) := by
  constructor
  · intro i hp hmin
    cases hf : findSub s t with
    | none => exact absurd hp (by simp [findSub_eq_none s t hf i])
    | some i2 =>
        obtain ⟨h1, h2⟩ := findSub_eq_some s t i2 hf
        have hee : i = i2 := by
          by_contra hne
          rcases Nat.lt_or_ge i i2 with hlt | hge
          · exact absurd hp (by simp [h2 i hlt])
          · have hlt2 : i2 < i := by omega
            exact absurd h1 (by simp [hmin i2 hlt2])
        subst hee
        simp [Value.index, hf]
  · intro hall
    cases hf : findSub s t with
    | none => simp [Value.index, hf]
    | some i2 =>
        obtain ⟨h1, _⟩ := findSub_eq_some s t i2 hf
        exact absurd h1 (by simp [hall i2])

/-- C8 (witness): the first occurrence of "ca" in "abcab" is at position
3, and a pattern that never occurs yields 0. -/
theorem C8_index_one_based_witness :
    Value.index (.StringLiteral ['a', 'b', 'c', 'a', 'b'])
        (.StringLiteral ['c', 'a']) = .ok (.Number 3) ∧
      Value.index (.StringLiteral ['a', 'b']) (.StringLiteral ['z'])
        = .ok (.Number 0) :=
  ⟨(C8_index_one_based ['a', 'b', 'c', 'a', 'b'] ['c', 'a']).1 2
      (by decide) (by decide),
    (C8_index_one_based ['a', 'b'] ['z']).2
      (fun j => match j with
        | 0 => rfl
        | 1 => rfl
        | 2 => rfl
        | _ + 3 => rfl)⟩

/-- C3 (counterexample): on a subject containing no match of the pattern,
`sub` still reports success, returning `Bool(true)`, a truthy value and
not the 0 the claim requires, while leaving the subject unchanged. -/
theorem C3_sub_gsub_counterexample :
    Value.sub (.StringLiteral ['a', 'b', 'c']) (.StringLiteral ['x'])
        (.StringLiteral ['y'])
      = .ok (.StringLiteral ['a', 'b', 'c'], .Bool true) ∧
      findSub ['a', 'b', 'c'] ['x'] = none ∧
      (Value.Bool true).is_truthy = true :=
  ⟨rfl, rfl, rfl⟩

/-- C3 (amended): on three string operands `sub` replaces the first match
in place and returns `Bool(true)` whether or not any match existed, and
`gsub` replaces every match in place and returns only the success unit of
its `Option<()>` type, never a match count. -/
theorem C3_sub_gsub (s pat repl : Str) :
    Value.sub (.StringLiteral s) (.StringLiteral pat) (.StringLiteral repl)
      = .ok (.StringLiteral (replaceFirst pat repl s), .Bool true) ∧
      Value.gsub (.StringLiteral s) (.StringLiteral pat)
          (.StringLiteral repl)
        = some (.StringLiteral (replaceAll pat repl s)) :=
  ⟨rfl, rfl⟩

/-- C4 (counterexample): splitting "a,b" on the separator "," stores the
two pieces at the zero-based keys "0" and "1"; the key "2" (the key "n" of
the claimed one-based range 1..n) is absent from the array, so the claimed
population of a[1..n] fails. -/
theorem C4_split_join_counterexample :
    Value.split (.StringLiteral ['a', ',', 'b']) (.StringLiteral [','])
        (.ArrayLiteral [])
      = .ok (.Number 2,
          .ArrayLiteral [(['0'], .StringLiteral ['a']),
            (['1'], .StringLiteral ['b'])]) ∧
      lookupA [(['0'], Value.StringLiteral ['a']),
          (['1'], Value.StringLiteral ['b'])] (['2'] : Str) = none ∧
      lookupA [(['0'], Value.StringLiteral ['a']),
          (['1'], Value.StringLiteral ['b'])] (['0'] : Str)
        = some (.StringLiteral ['a']) :=
  ⟨rfl, rfl, rfl⟩

/-- C4 (amended): splitting on a literal single-character separator
returns the piece count and stores the pieces at zero-based stringified
keys, and joining the pieces with the separator in split order restores
the original string; the join of the source iterates a hash map whose
order Rust leaves unspecified, so the round trip is stated on the split
pieces in their split order. -/
theorem C4_split_join (c : Char) (s : Str) :
    (∃ mp, Value.split (.StringLiteral s) (.StringLiteral [c])
        (.ArrayLiteral [])
      = .ok (.Number (s.splitOn c).length, .ArrayLiteral mp)) ∧
      List.intercalate [c] (s.splitOn c) = s :=
  ⟨⟨_, rfl⟩, List.intercalate_splitOn s c⟩
